import Mathlib

/-!
Verification of the supercaching DNS forwarder.

This file gives a shallow embedding of the two source files of the
repository (src/main.rs and src/args.rs) and proves the testable
properties stated in the specification against that embedding.

Modelling conventions:
* machine integers are `Nat`/`Int` with explicit `% 2^w` where the Rust
  code truncates (`as u32`, `as u16`);
* `std::time::SystemTime` instants are whole seconds since the Unix epoch,
  represented as `Nat`; successive `SystemTime::now()` calls inside one
  request are modelled as a single instant `now` (the code takes them
  microseconds apart and all claims are stated at seconds resolution);
* fallible paths return `Option`/`Except`; a Rust `panic!`/`expect` that
  can actually fire is modelled as `none`;
* DNS RDATA is opaque to the whole program (it is only moved around and
  serialized), so it is modelled as an opaque `String` payload.
-/

namespace SCDns

/-- DNS record types. The source uses the wire codec's full enum; only the
constructors the program inspects (`SOA`, `NS`) are semantically relevant,
the others all behave like `A` below. -/
inductive RecordType where
  | A
  | AAAA
  | CNAME
  | MX
  | NS
  | SOA
  | TXT
  deriving DecidableEq

/-- `RecordType::is_soa` from the wire codec: true exactly on `SOA`. -/
def RecordType.is_soa : RecordType → Bool
  | .SOA => true
  | _ => false

/-- `RecordType::is_ns` from the wire codec: true exactly on `NS`. -/
def RecordType.is_ns : RecordType → Bool
  | .NS => true
  | _ => false

/-- DNS classes (the codec's `DNSClass`); `IN` is the default used by
`Record::with`. -/
inductive DNSClass where
  | IN
  | CH
  | HS
  deriving DecidableEq

/-- A DNS resource record as delivered by the wire codec: name (canonical
string form, i.e. what `Name::to_string()` yields, case preserved), type,
class, TTL (u32 seconds) and optional opaque RDATA (`Record::data()` is an
`Option`). -/
structure Record where
  name : String
  rtype : RecordType
  rclass : DNSClass
  ttl : Nat
  rdata : Option String
  deriving DecidableEq

/-- The 4-bucket grouping `RecordsByKind` from src/main.rs. -/
structure RecordsByKind where
  answers : List Record
  name_servers : List Record
  soa : List Record
  additionals : List Record
  deriving DecidableEq

/-- `RecordsByKind::default()`: four empty buckets. -/
def RecordsByKind.empty : RecordsByKind := ⟨[], [], [], []⟩

/-- The TTL rewrite inside the loop of `sort_out_records` (src/main.rs
lines 88-93): `ttl_expires_at = received_at + ttl` seconds;
`time_until_expiration = ttl_expires_at.duration_since(now()).unwrap_or_default()`
is truncated subtraction (zero when already expired); `.as_secs() as u32`
truncates to 32 bits. -/
def rewriteTtl (receivedAt now ttl : Nat) : Nat :=
  ((receivedAt + ttl) - now) % 4294967296

/-- The record clone with rewritten TTL (`record.set_ttl(...)`). -/
def rewriteRecord (receivedAt now : Nat) (r : Record) : Record :=
  { r with ttl := rewriteTtl receivedAt now r.ttl }

/-- One iteration of the `for record in records` loop of
`sort_out_records`: rewrite the TTL, then push into the first bucket whose
test matches (SOA, then NS, then name-equals-query, else additionals). -/
def sortStep (queryName : String) (receivedAt now : Nat)
    (d : RecordsByKind) (record0 : Record) : RecordsByKind :=
  let record := rewriteRecord receivedAt now record0
  if record.rtype.is_soa then { d with soa := d.soa ++ [record] }
  else if record.rtype.is_ns then { d with name_servers := d.name_servers ++ [record] }
  else if record.name = queryName then { d with answers := d.answers ++ [record] }
  else { d with additionals := d.additionals ++ [record] }

/-- `sort_out_records` from src/main.rs lines 77-113: fold the loop body
over the input records starting from the default (empty) grouping. The
`request` argument is reduced to the query name, which is all the function
reads from it (`request.query().name().to_string()`). -/
def sort_out_records (queryName : String) (records : List Record)
    (receivedAt now : Nat) : RecordsByKind :=
  records.foldl (sortStep queryName receivedAt now) RecordsByKind.empty

/-- The four response sections, used to speak about which bucket a record
lands in. -/
inductive Bucket where
  | answers
  | nameServers
  | soa
  | additionals
  deriving DecidableEq

/-- The bucket `sort_out_records` chooses for a record: the first matching
rule in the order SOA → NS → name-matches-query → additionals, read off
the if-chain of the loop body. -/
def bucketOf (queryName : String) (r : Record) : Bucket :=
  if r.rtype.is_soa then .soa
  else if r.rtype.is_ns then .nameServers
  else if r.name = queryName then .answers
  else .additionals

/-- All records of a grouping in section order (answers, NS, SOA,
additionals) -- the order `make_response` emits them. -/
def RecordsByKind.allRecords (d : RecordsByKind) : List Record :=
  d.answers ++ d.name_servers ++ d.soa ++ d.additionals

theorem rewriteRecord_rtype (ra now : Nat) (r : Record) :
    (rewriteRecord ra now r).rtype = r.rtype := rfl

theorem rewriteRecord_name (ra now : Nat) (r : Record) :
    (rewriteRecord ra now r).name = r.name := rfl

/-- The loop of `sort_out_records`, run from an arbitrary accumulator,
appends to each bucket exactly the (TTL-rewritten) records whose
`bucketOf` is that bucket, in source order. -/
theorem foldl_sortStep_eq (q : String) (ra now : Nat) :
    ∀ (records : List Record) (init : RecordsByKind),
      records.foldl (sortStep q ra now) init =
        { answers := init.answers ++
            (records.filter (fun r => bucketOf q r == Bucket.answers)).map (rewriteRecord ra now),
          name_servers := init.name_servers ++
            (records.filter (fun r => bucketOf q r == Bucket.nameServers)).map (rewriteRecord ra now),
          soa := init.soa ++
            (records.filter (fun r => bucketOf q r == Bucket.soa)).map (rewriteRecord ra now),
          additionals := init.additionals ++
            (records.filter (fun r => bucketOf q r == Bucket.additionals)).map (rewriteRecord ra now) } := by
  intro records
  induction records with
  | nil => intro init; cases init; simp
  | cons r rs ih =>
    intro init
    rw [List.foldl_cons, ih]
    by_cases h1 : r.rtype.is_soa
    · have hb : bucketOf q r = .soa := by simp [bucketOf, h1]
      simp [sortStep, rewriteRecord_rtype, rewriteRecord_name, h1, hb,
        List.filter_cons, List.append_assoc, beq_iff_eq]
    · by_cases h2 : r.rtype.is_ns
      · have hb : bucketOf q r = .nameServers := by simp [bucketOf, h1, h2]
        simp [sortStep, rewriteRecord_rtype, rewriteRecord_name, h1, h2, hb,
          List.filter_cons, List.append_assoc, beq_iff_eq]
      · by_cases h3 : r.name = q
        · have hb : bucketOf q r = .answers := by simp [bucketOf, h1, h2, h3]
          simp [sortStep, rewriteRecord_rtype, rewriteRecord_name, h1, h2, h3, hb,
            List.filter_cons, List.append_assoc, beq_iff_eq]
        · have hb : bucketOf q r = .additionals := by simp [bucketOf, h1, h2, h3]
          simp [sortStep, rewriteRecord_rtype, rewriteRecord_name, h1, h2, h3, hb,
            List.filter_cons, List.append_assoc, beq_iff_eq]

/-- The buckets of `sort_out_records` are the filtered, TTL-rewritten
input, in source order. -/
theorem sort_out_records_eq (q : String) (records : List Record) (ra now : Nat) :
    sort_out_records q records ra now =
      { answers :=
          (records.filter (fun r => bucketOf q r == Bucket.answers)).map (rewriteRecord ra now),
        name_servers :=
          (records.filter (fun r => bucketOf q r == Bucket.nameServers)).map (rewriteRecord ra now),
        soa :=
          (records.filter (fun r => bucketOf q r == Bucket.soa)).map (rewriteRecord ra now),
        additionals :=
          (records.filter (fun r => bucketOf q r == Bucket.additionals)).map (rewriteRecord ra now) } := by
  rw [sort_out_records, foldl_sortStep_eq]
  rfl

/-- The four bucket filters partition the input: their lengths sum to the
input length. -/
theorem bucket_filter_length (q : String) (records : List Record) :
    (records.filter (fun r => bucketOf q r == Bucket.answers)).length
      + (records.filter (fun r => bucketOf q r == Bucket.nameServers)).length
      + (records.filter (fun r => bucketOf q r == Bucket.soa)).length
      + (records.filter (fun r => bucketOf q r == Bucket.additionals)).length
      = records.length := by
  induction records with
  | nil => simp
  | cons r rs ih =>
    cases hb : bucketOf q r <;>
      simp [List.filter_cons, hb] <;>
      omega

/-- A record is among the emitted records of `sort_out_records` iff it is
the TTL-rewrite of one of the input records. -/
theorem mem_allRecords_sort (q : String) (records : List Record) (ra now : Nat) (r : Record) :
    r ∈ (sort_out_records q records ra now).allRecords
      ↔ ∃ r0 ∈ records, rewriteRecord ra now r0 = r := by
  rw [sort_out_records_eq]
  simp only [RecordsByKind.allRecords, List.mem_append, List.mem_map, List.mem_filter,
    beq_iff_eq]
  constructor
  · rintro (((⟨r0, ⟨hm, _⟩, rfl⟩ | ⟨r0, ⟨hm, _⟩, rfl⟩) | ⟨r0, ⟨hm, _⟩, rfl⟩) | ⟨r0, ⟨hm, _⟩, rfl⟩) <;>
      exact ⟨r0, hm, rfl⟩
  · rintro ⟨r0, hm, rfl⟩
    cases hb : bucketOf q r0
    case answers => exact Or.inl (Or.inl (Or.inl ⟨r0, ⟨hm, hb⟩, rfl⟩))
    case nameServers => exact Or.inl (Or.inl (Or.inr ⟨r0, ⟨hm, hb⟩, rfl⟩))
    case soa => exact Or.inl (Or.inr ⟨r0, ⟨hm, hb⟩, rfl⟩)
    case additionals => exact Or.inr ⟨r0, ⟨hm, hb⟩, rfl⟩

/-- The truncated-subtraction form of the TTL rewrite equals the
`max(0, received_at + ttl - now)` form of the specification. -/
theorem rewriteTtl_eq_int (ra now ttl : Nat) :
    rewriteTtl ra now ttl = (((ra : Int) + (ttl : Int) - (now : Int)).toNat) % 4294967296 := by
  have h : (((ra : Int) + (ttl : Int) - (now : Int)).toNat) = ra + ttl - now := by omega
  rw [rewriteTtl, h]

/-- Claim C3: every record emerging from the classifier carries
`ttl = max(0, (received_at + original_ttl) - now)` truncated to 32 bits
(first conjunct: each output record is an input record with exactly that
TTL), and a record whose expiry instant is already past emerges with
TTL = 0 and is still included in the output (second conjunct). -/
theorem C3_ttl_rewrite (q : String) (records : List Record) (ra now : Nat) :
    (∀ r ∈ (sort_out_records q records ra now).allRecords,
        ∃ r0 ∈ records,
          r = { r0 with ttl := ((((ra : Int) + (r0.ttl : Int) - (now : Int)).toNat) % 4294967296 : Nat) })
    ∧ ∀ r0 ∈ records, ra + r0.ttl ≤ now →
        { r0 with ttl := 0 } ∈ (sort_out_records q records ra now).allRecords := by
  constructor
  · intro r hr
    obtain ⟨r0, hm, rfl⟩ := (mem_allRecords_sort q records ra now r).1 hr
    refine ⟨r0, hm, ?_⟩
    simp [rewriteRecord, rewriteTtl_eq_int]
  · intro r0 hm hexp
    have hz : (ra + r0.ttl) - now = 0 := by omega
    have h0 : rewriteRecord ra now r0 = { r0 with ttl := 0 } := by
      simp [rewriteRecord, rewriteTtl, hz]
    exact (mem_allRecords_sort q records ra now _).2 ⟨r0, hm, h0⟩

/-- A record of a test query, already expired at the time of
classification. -/
def c3rec : Record :=
  { name := "a.example.com.", rtype := .A, rclass := .IN, ttl := 300, rdata := some "1.2.3.4" }

/-- Witness for C3: the expired record above emerges with TTL 0. -/
theorem C3_ttl_rewrite_witness :
    { c3rec with ttl := 0 } ∈ (sort_out_records "a.example.com." [c3rec] 100 1000).allRecords :=
  (C3_ttl_rewrite "a.example.com." [c3rec] 100 1000).2 c3rec (by simp) (by decide)

/-- Claim C7: `sort_out_records` partitions its input. Each bucket equals
the input filtered by the first-matching-rule bucket assignment
(SOA → NS → name-matches-query → additionals, the order of `bucketOf`)
with TTLs rewritten, preserving source order and duplicates, and the four
bucket lengths sum to the input length (no record dropped, each in exactly
one bucket). -/
theorem C7_partition (q : String) (records : List Record) (ra now : Nat) :
    ((sort_out_records q records ra now).answers
        = (records.filter (fun r => bucketOf q r == Bucket.answers)).map (rewriteRecord ra now)
      ∧ (sort_out_records q records ra now).name_servers
        = (records.filter (fun r => bucketOf q r == Bucket.nameServers)).map (rewriteRecord ra now)
      ∧ (sort_out_records q records ra now).soa
        = (records.filter (fun r => bucketOf q r == Bucket.soa)).map (rewriteRecord ra now)
      ∧ (sort_out_records q records ra now).additionals
        = (records.filter (fun r => bucketOf q r == Bucket.additionals)).map (rewriteRecord ra now))
    ∧ (sort_out_records q records ra now).answers.length
        + (sort_out_records q records ra now).name_servers.length
        + (sort_out_records q records ra now).soa.length
        + (sort_out_records q records ra now).additionals.length
      = records.length := by
  rw [sort_out_records_eq]
  refine ⟨⟨rfl, rfl, rfl, rfl⟩, ?_⟩
  simp only [List.length_map]
  exact bucket_filter_length q records

/-- Lower-casing of a canonical name string, the normalization the claim
C4 says the comparison performs. -/
def lowerName (s : String) : String := ⟨s.data.map Char.toLower⟩

/-- Claim C4 (amended): the answers-vs-additionals comparison is the exact,
case-sensitive equality of the canonical string forms of the record name
and the query name: a non-SOA, non-NS record goes to answers when the
strings are equal and to additionals otherwise. -/
theorem C4_name_comparison (q : String) (records : List Record) (ra now : Nat)
    (r : Record) (hmem : r ∈ records)
    (hsoa : r.rtype.is_soa = false) (hns : r.rtype.is_ns = false) :
    (r.name = q → rewriteRecord ra now r ∈ (sort_out_records q records ra now).answers)
    ∧ (r.name ≠ q → rewriteRecord ra now r ∈ (sort_out_records q records ra now).additionals) := by
  rw [sort_out_records_eq]
  constructor
  · intro hn
    exact List.mem_map.2 ⟨r, List.mem_filter.2 ⟨hmem, by simp [bucketOf, hsoa, hns, hn]⟩, rfl⟩
  · intro hn
    exact List.mem_map.2 ⟨r, List.mem_filter.2 ⟨hmem, by simp [bucketOf, hsoa, hns, hn]⟩, rfl⟩

/-- Witness for the amended C4: a record whose name equals the query name
exactly lands in the answers bucket. -/
theorem C4_name_comparison_witness :
    rewriteRecord 10 10
        { name := "b.example.com.", rtype := .A, rclass := .IN, ttl := 60, rdata := some "5.6.7.8" }
      ∈ (sort_out_records "b.example.com."
          [{ name := "b.example.com.", rtype := .A, rclass := .IN, ttl := 60, rdata := some "5.6.7.8" }] 10 10).answers :=
  (C4_name_comparison "b.example.com."
    [{ name := "b.example.com.", rtype := .A, rclass := .IN, ttl := 60, rdata := some "5.6.7.8" }]
    10 10 { name := "b.example.com.", rtype := .A, rclass := .IN, ttl := 60, rdata := some "5.6.7.8" }
    (by simp) rfl rfl).1 rfl

/-- A record whose name differs from the query name only in letter case. -/
def c4rec : Record :=
  { name := "WWW.example.com.", rtype := .A, rclass := .IN, ttl := 300, rdata := some "1.2.3.4" }

/-- Counterexample to claim C4 as stated: `c4rec` has the query's name up
to lower-casing and is neither SOA nor NS, yet the code places it in the
additionals bucket, not in answers (the source compares raw stringified
names). -/
theorem C4_counterexample :
    lowerName c4rec.name = lowerName "www.example.com."
    ∧ c4rec.rtype.is_soa = false
    ∧ c4rec.rtype.is_ns = false
    ∧ rewriteRecord 100 100 c4rec ∉ (sort_out_records "www.example.com." [c4rec] 100 100).answers
    ∧ (sort_out_records "www.example.com." [c4rec] 100 100).answers = []
    ∧ (sort_out_records "www.example.com." [c4rec] 100 100).additionals
        = [{ c4rec with ttl := 300 }] := by
  refine ⟨by decide, rfl, rfl, by decide, rfl, rfl⟩

/-!
Serialization of record lists.

Modelled from the spec: in the source the cache blob is produced by
`serde_json::to_string` and consumed by `serde_json::from_str` over the
wire codec's record type -- external library code, not part of this
repository. The spec stipulates only that the blob is opaque and that
`deserialize(serialize(R))` yields a record list equivalent to `R` modulo
per-record semantic equality (name, type, class, TTL, RDATA). We model it
as a concrete injective field encoding ('\\'-escaped, '|'-terminated
fields) and prove that round-trip law.
-/

/-- Escape a character for field encoding: the separator and the escape
character are prefixed with a backslash. -/
def escapeChar (c : Char) : List Char :=
  if c = '\\' ∨ c = '|' then ['\\', c] else [c]

/-- Encode one field: escape every character, then a '|' terminator. -/
def encodeField : List Char → List Char
  | [] => ['|']
  | c :: cs => escapeChar c ++ encodeField cs

/-- Decode one field: scan to the first unescaped '|'. -/
def decodeField : List Char → Option (List Char × List Char)
  | [] => none
  | '|' :: rest => some ([], rest)
  | '\\' :: [] => none
  | '\\' :: c2 :: rest2 => (decodeField rest2).map (fun p => (c2 :: p.1, p.2))
  | c :: rest => (decodeField rest).map (fun p => (c :: p.1, p.2))

theorem decodeField_encodeField (s rest : List Char) :
    decodeField (encodeField s ++ rest) = some (s, rest) := by
  induction s with
  | nil => rfl
  | cons c cs ih =>
    by_cases h2 : c = '\\'
    · subst h2
      simp [encodeField, escapeChar, decodeField, ih]
    · by_cases h1 : c = '|'
      · subst h1
        simp [encodeField, escapeChar, decodeField, ih]
      · simp [encodeField, escapeChar, h1, h2, decodeField, ih]

theorem encodeField_ne_nil (s : List Char) : encodeField s ≠ [] := by
  cases s with
  | nil => simp [encodeField]
  | cons c cs =>
    simp only [encodeField, escapeChar]
    split <;> simp

/-- Little-endian decimal digits of a number (fuel-structured so that the
kernel can evaluate it). -/
def digitToChar : Nat → Char
  | 0 => '0'
  | 1 => '1'
  | 2 => '2'
  | 3 => '3'
  | 4 => '4'
  | 5 => '5'
  | 6 => '6'
  | 7 => '7'
  | 8 => '8'
  | _ => '9'

def charToDigit (c : Char) : Nat :=
  if c = '0' then 0 else if c = '1' then 1 else if c = '2' then 2 else if c = '3' then 3
  else if c = '4' then 4 else if c = '5' then 5 else if c = '6' then 6 else if c = '7' then 7
  else if c = '8' then 8 else 9

theorem charToDigit_digitToChar (d : Nat) (h : d < 10) :
    charToDigit (digitToChar d) = d := by
  interval_cases d <;> rfl

def natToCharsLEAux (fuel n : Nat) : List Char :=
  match fuel with
  | 0 => []
  | fuel + 1 => if n = 0 then [] else digitToChar (n % 10) :: natToCharsLEAux fuel (n / 10)

def natToCharsLE (n : Nat) : List Char := natToCharsLEAux (n + 1) n

def charsToNatLE : List Char → Nat
  | [] => 0
  | c :: rest => charToDigit c + 10 * charsToNatLE rest

theorem charsToNatLE_natToCharsLEAux (fuel : Nat) :
    ∀ n, n < fuel → charsToNatLE (natToCharsLEAux fuel n) = n := by
  induction fuel with
  | zero => intro n h; omega
  | succ f ih =>
    intro n h
    rw [natToCharsLEAux]
    by_cases h0 : n = 0
    · simp [h0, charsToNatLE]
    · have hdiv : n / 10 < f := by omega
      simp only [h0, if_false, charsToNatLE]
      rw [ih (n / 10) hdiv, charToDigit_digitToChar (n % 10) (Nat.mod_lt n (by decide))]
      omega

theorem charsToNatLE_natToCharsLE (n : Nat) : charsToNatLE (natToCharsLE n) = n :=
  charsToNatLE_natToCharsLEAux (n + 1) n (by omega)

/-- The wire-format name of a record type, as `RecordType::to_string()`
prints it (used both as the cache key's `record_type` column and inside
the serialized blob). -/
def RecordType.toStr : RecordType → String
  | .A => "A"
  | .AAAA => "AAAA"
  | .CNAME => "CNAME"
  | .MX => "MX"
  | .NS => "NS"
  | .SOA => "SOA"
  | .TXT => "TXT"

def RecordType.ofStr (s : List Char) : Option RecordType :=
  if s = ("A" : String).data then some .A
  else if s = ("AAAA" : String).data then some .AAAA
  else if s = ("CNAME" : String).data then some .CNAME
  else if s = ("MX" : String).data then some .MX
  else if s = ("NS" : String).data then some .NS
  else if s = ("SOA" : String).data then some .SOA
  else if s = ("TXT" : String).data then some .TXT
  else none

theorem recordTypeOfStr_toStr (t : RecordType) : RecordType.ofStr t.toStr.data = some t := by
  cases t <;> rfl

def DNSClass.toStr : DNSClass → String
  | .IN => "IN"
  | .CH => "CH"
  | .HS => "HS"

def DNSClass.ofStr (s : List Char) : Option DNSClass :=
  if s = ("IN" : String).data then some .IN
  else if s = ("CH" : String).data then some .CH
  else if s = ("HS" : String).data then some .HS
  else none

theorem dnsClassOfStr_toStr (c : DNSClass) : DNSClass.ofStr c.toStr.data = some c := by
  cases c <;> rfl

/-- The optional RDATA, tagged 'n' (absent) or 's' (present). -/
def encodeOptData : Option String → List Char
  | none => encodeField ['n']
  | some s => encodeField ['s'] ++ encodeField s.data

/-- One serialized record: name, type, class, TTL, RDATA fields. -/
def encodeRecord (r : Record) : List Char :=
  encodeField r.name.data ++ encodeField r.rtype.toStr.data ++ encodeField r.rclass.toStr.data
    ++ encodeField (natToCharsLE r.ttl) ++ encodeOptData r.rdata

def decodeRecord (l : List Char) : Option (Record × List Char) :=
  match decodeField l with
  | none => none
  | some (nm, l1) =>
    match decodeField l1 with
    | none => none
    | some (ts, l2) =>
      match RecordType.ofStr ts with
      | none => none
      | some t =>
        match decodeField l2 with
        | none => none
        | some (cs, l3) =>
          match DNSClass.ofStr cs with
          | none => none
          | some cl =>
            match decodeField l3 with
            | none => none
            | some (ttlc, l4) =>
              match decodeField l4 with
              | none => none
              | some (tag, l5) =>
                if tag = ['n'] then some (⟨⟨nm⟩, t, cl, charsToNatLE ttlc, none⟩, l5)
                else if tag = ['s'] then
                  match decodeField l5 with
                  | none => none
                  | some (pl, l6) => some (⟨⟨nm⟩, t, cl, charsToNatLE ttlc, some ⟨pl⟩⟩, l6)
                else none

theorem decodeRecord_encodeRecord (r : Record) (rest : List Char) :
    decodeRecord (encodeRecord r ++ rest) = some (r, rest) := by
  obtain ⟨nm, t, cl, ttl, rd⟩ := r
  cases rd with
  | none =>
    simp [encodeRecord, encodeOptData, decodeRecord, List.append_assoc,
      decodeField_encodeField, recordTypeOfStr_toStr, dnsClassOfStr_toStr,
      charsToNatLE_natToCharsLE]
  | some pl =>
    simp [encodeRecord, encodeOptData, decodeRecord, List.append_assoc,
      decodeField_encodeField, recordTypeOfStr_toStr, dnsClassOfStr_toStr,
      charsToNatLE_natToCharsLE]

theorem encodeRecord_ne_nil (r : Record) : encodeRecord r ≠ [] := by
  intro h
  simp only [encodeRecord, List.append_eq_nil] at h
  exact encodeField_ne_nil _ h.1.1.1.1

/-- The serialized batch: records encoded back to back. -/
def encodeRecordList : List Record → List Char
  | [] => []
  | r :: rs => encodeRecord r ++ encodeRecordList rs

/-- `serde_json::to_string` of the record batch, modelled from the spec as
the concrete injective encoding above. -/
def serializeRecords (rs : List Record) : String := ⟨encodeRecordList rs⟩

/-- Fuel-structured decode loop; each record consumes at least one
character, so `length + 1` fuel always suffices. -/
def decodeRecordsWithFuel : Nat → List Char → Option (List Record)
  | 0, _ => none
  | fuel + 1, l =>
    if l = [] then some []
    else
      match decodeRecord l with
      | none => none
      | some (r, rest) =>
        match decodeRecordsWithFuel fuel rest with
        | none => none
        | some rs => some (r :: rs)

/-- `serde_json::from_str` of a cache blob, modelled from the spec as the
inverse of `serializeRecords`. -/
def deserializeRecords (s : String) : Option (List Record) :=
  decodeRecordsWithFuel (s.data.length + 1) s.data

theorem decodeRecordsWithFuel_encodeRecordList (rs : List Record) :
    ∀ (fuel : Nat), rs.length < fuel →
      decodeRecordsWithFuel fuel (encodeRecordList rs) = some rs := by
  induction rs with
  | nil =>
    intro fuel h
    match fuel, h with
    | f + 1, _ => rfl
  | cons r rs ih =>
    intro fuel h
    match fuel, h with
    | f + 1, h =>
      have hlen : rs.length < f := by
        simp only [List.length_cons] at h
        omega
      have hne : encodeRecord r ++ encodeRecordList rs ≠ [] := by
        intro hh
        exact encodeRecord_ne_nil r (List.append_eq_nil.mp hh).1
      rw [encodeRecordList, decodeRecordsWithFuel, if_neg hne, decodeRecord_encodeRecord]
      simp [ih f hlen]

theorem encodeRecordList_length_ge (rs : List Record) :
    rs.length ≤ (encodeRecordList rs).length := by
  induction rs with
  | nil => simp [encodeRecordList]
  | cons r rs ih =>
    have h1 : 0 < (encodeRecord r).length := List.length_pos.mpr (encodeRecord_ne_nil r)
    simp only [encodeRecordList, List.length_append, List.length_cons]
    omega

/-- Round-trip law of the cache serialization. -/
theorem deserializeRecords_serializeRecords (rs : List Record) :
    deserializeRecords (serializeRecords rs) = some rs := by
  rw [serializeRecords, deserializeRecords]
  refine decodeRecordsWithFuel_encodeRecordList rs _ ?_
  have := encodeRecordList_length_ge rs
  simp only [String.data]
  omega

/-!
The query handler (`Handler::handle_request`, src/main.rs lines 145-316).

The handler is a pure function of the decoded request, the outcome of the
upstream lookup, the current cache contents, and the wall-clock instant.
Besides the response it returns the list of database statements it issues
(the detached `INSERT ... ON CONFLICT` of the success branch, and the
`UPDATE ... RETURNING` of the fallback branch), so that claims about
which paths read or write the cache are statements about that list.
A `none` result models a `panic!`/`expect` firing before a response is
sent (malformed cache blob, or an upstream SOA record carrying no data).
-/

/-- `hickory_server::proto::op::MessageType`. -/
inductive MessageType where
  | query
  | response
  deriving DecidableEq

/-- The response codes the program mentions, plus the codes an upstream
negative answer can carry. -/
inductive ResponseCode where
  | noError
  | formErr
  | servFail
  | nxDomain
  | notImp
  | refused
  deriving DecidableEq

/-- The decoded client request: id, message type, and the query's name
(canonical string form) and record type. -/
structure Request where
  id : Nat
  messageType : MessageType
  queryName : String
  queryType : RecordType
  deriving DecidableEq

/-- The DNS header fields the program manipulates. -/
structure Header where
  id : Nat
  messageType : MessageType
  responseCode : ResponseCode
  deriving DecidableEq

/-- `Header::new()` from the wire codec: id 0, message type Query,
response code NoError. -/
def Header.new : Header :=
  { id := 0, messageType := .query, responseCode := .noError }

/-- A response message as handed to `send_response`: the header fields
plus the four record sections (the section counts of the wire header are
the lengths of these lists). -/
structure DnsResponse where
  id : Nat
  messageType : MessageType
  responseCode : ResponseCode
  answers : List Record
  name_servers : List Record
  soa : List Record
  additionals : List Record
  deriving DecidableEq

/-- `MessageResponseBuilder::error_msg(header, code)` from the wire codec:
builds an empty-bodied response via `Header::response_from_request` on the
PASSED header -- copying that header's id -- and sets the response code.
(This is why every branch of the source except the Refused one calls
`header.set_id(request.id())` on the header it passes in.) -/
def error_msg (h : Header) (rc : ResponseCode) : DnsResponse :=
  { id := h.id, messageType := .response, responseCode := rc,
    answers := [], name_servers := [], soa := [], additionals := [] }

/-- `RecordsByKind::make_response` (src/main.rs lines 116-143): header
with the request's id, message type Response, section counts from the
bucket lengths, sections emitted in order answers, NS, SOA, additionals. -/
def RecordsByKind.make_response (d : RecordsByKind) (req : Request) : DnsResponse :=
  { id := req.id, messageType := .response, responseCode := .noError,
    answers := d.answers, name_servers := d.name_servers,
    soa := d.soa, additionals := d.additionals }

/-- The response built in the NoRecordsFound branch (src/main.rs lines
241-258): `Header::new()` with the request id and the upstream response
code set (its message type is left at the `Header::new` default), and
`build(header, [], [], my_soa, [])`. -/
def negativeResponse (req : Request) (rc : ResponseCode) (my_soa : List Record) : DnsResponse :=
  { id := req.id, messageType := Header.new.messageType, responseCode := rc,
    answers := [], name_servers := [], soa := my_soa, additionals := [] }

/-- The outcome of `self.resolver.lookup(...)`: a record batch, or one of
the `ResolveErrorKind`s the handler distinguishes. `noRecordsFound`
carries the optional SOA record and the upstream response code;
`otherFailure` stands for every remaining kind (timeout, protocol error,
network error, ...). -/
inductive UpstreamOutcome where
  | success (records : List Record)
  | noConnections
  | noRecordsFound (soa : Option Record) (responseCode : ResponseCode)
  | otherFailure
  deriving DecidableEq

/-- A row of the `record` table as read back by the fallback query
(`RETURNING content_json, data_received_at_unix`). -/
structure CacheRow where
  content_json : String
  data_received_at_unix : Int
  deriving DecidableEq

/-- A database statement issued by the handler. -/
inductive DbEffect where
  | upsert (record_name record_type content_json : String)
      (data_received_at_unix last_query_at_unix : Int)
  | touch_and_fetch (record_name record_type : String) (last_query_at_unix : Int)
  deriving DecidableEq

/-- Rust's `as u64` on an `i64` value: reduction modulo 2^64. -/
def i64ToU64 (x : Int) : Nat := (x % (2 ^ 64 : Int)).toNat

/-- `Handler::handle_request` (src/main.rs lines 147-315). `cache` maps a
(record_name, record_type) key to its row, if any; `now` is the current
wall clock in whole seconds since the Unix epoch (the source's several
`SystemTime::now()` calls within one request, seconds apart at most,
are modelled as this single instant). -/
def handle_request (req : Request) (outcome : UpstreamOutcome)
    (cache : String → String → Option CacheRow) (now : Nat) :
    Option (DnsResponse × List DbEffect) :=
  match req.messageType with
  | .response =>
    some (error_msg Header.new .refused, [])
  | .query =>
    match outcome with
    | .success records =>
      let record_name := req.queryName
      let record_type := req.queryType.toStr
      let record_data := serializeRecords records
      let last_query_at_unix : Int := (now : Int)
      let data_received_at_unix : Int := last_query_at_unix
      let effects := [DbEffect.upsert record_name record_type record_data
        data_received_at_unix last_query_at_unix]
      some ((sort_out_records req.queryName records now now).make_response req, effects)
    | .noConnections =>
      some (error_msg { Header.new with id := req.id } .servFail, [])
    | .noRecordsFound soaRec rc =>
      match soaRec with
      | none => some (negativeResponse req rc [], [])
      | some record =>
        match record.rdata with
        | none => none
        | some d =>
          let new_record : Record :=
            { name := record.name, rtype := record.rtype, rclass := .IN,
              ttl := record.ttl, rdata := some d }
          some (negativeResponse req rc [new_record], [])
    | .otherFailure =>
      let record_name := req.queryName
      let record_type := req.queryType.toStr
      let touch := DbEffect.touch_and_fetch record_name record_type (now : Int)
      match cache record_name record_type with
      | some row =>
        match deserializeRecords row.content_json with
        | none => none
        | some records =>
          let received_at := i64ToU64 row.data_received_at_unix
          some ((sort_out_records req.queryName records received_at now).make_response req, [touch])
      | none =>
        some (error_msg { Header.new with id := req.id } .servFail, [touch])

/-- Claim C1, evaluated at the failing input: an inbound Response message
with request id 1 is answered with the Refused reply built from a fresh
`Header::new()` -- so the emitted response carries id 0, not the request's
id 1. Every other branch of the source calls `header.set_id(request.id())`
on the header it passes to the builder; the Refused branch alone passes
`&Header::new()`. -/
theorem C1_refused_id_not_preserved :
    handle_request { id := 1, messageType := .response, queryName := "example.com.", queryType := .A }
        .otherFailure (fun _ _ => none) 0
      = some ({ id := 0, messageType := .response, responseCode := .refused,
                answers := [], name_servers := [], soa := [], additionals := [] }, []) := rfl

/-- Claim C2: on an upstream failure other than NoConnections and
NoRecordsFound, if the cache holds a row for the query's (name, type) key
then the handler replies with the cached record list (deserialized from
`content_json`) with TTLs rewritten by the classifier at
`received_at = epoch + data_received_at_unix` seconds, issuing only the
touch-and-fetch statement; ServFail is returned on this path only when
the cache has no row for that key. -/
theorem C2_cache_fallback (req : Request) (cache : String → String → Option CacheRow)
    (now : Nat) (hq : req.messageType = .query) :
    (∀ row records,
        cache req.queryName req.queryType.toStr = some row →
        0 ≤ row.data_received_at_unix →
        row.data_received_at_unix < (2 : Int) ^ 64 →
        deserializeRecords row.content_json = some records →
        handle_request req .otherFailure cache now
          = some ((sort_out_records req.queryName records
                      row.data_received_at_unix.toNat now).make_response req,
                  [DbEffect.touch_and_fetch req.queryName req.queryType.toStr (now : Int)]))
    ∧ (cache req.queryName req.queryType.toStr = none →
        handle_request req .otherFailure cache now
          = some (error_msg { Header.new with id := req.id } .servFail,
                  [DbEffect.touch_and_fetch req.queryName req.queryType.toStr (now : Int)])) := by
  constructor
  · intro row records hrow h0 hlt hdes
    have hcast : i64ToU64 row.data_received_at_unix = row.data_received_at_unix.toNat := by
      rw [i64ToU64, Int.emod_eq_of_lt h0 hlt]
    simp only [handle_request, hq, hrow, hdes, hcast]
  · intro hnone
    simp only [handle_request, hq, hnone]

/-- A record, row and cache for the C2 witness. -/
def c2rec : Record :=
  { name := "c.example.com.", rtype := .A, rclass := .IN, ttl := 300, rdata := some "9.9.9.9" }

def c2row : CacheRow :=
  { content_json := serializeRecords [c2rec], data_received_at_unix := 100 }

def c2cache : String → String → Option CacheRow :=
  fun n t => if n = "c.example.com." ∧ t = "A" then some c2row else none

/-- Witness for C2: a fallback read at `now = 1000` of a row received at
100 replies from the cache with the touch statement. -/
theorem C2_cache_fallback_witness :
    handle_request { id := 7, messageType := .query, queryName := "c.example.com.", queryType := .A }
        .otherFailure c2cache 1000
      = some ((sort_out_records "c.example.com." [c2rec] 100 1000).make_response
                { id := 7, messageType := .query, queryName := "c.example.com.", queryType := .A },
              [DbEffect.touch_and_fetch "c.example.com." "A" (1000 : Int)]) :=
  (C2_cache_fallback { id := 7, messageType := .query, queryName := "c.example.com.", queryType := .A }
      c2cache 1000 rfl).1 c2row [c2rec] rfl (by decide) (by decide) rfl

/-- Claim C5: on NoRecordsFound the handler replies with the upstream's
response code; the upstream SOA record (when present, carrying data) is
the sole entry of the SOA/authority section with name, type, TTL and
RDATA preserved; answers, name servers and additionals are empty; and the
handler issues no database statement (the cache is neither read nor
written on this path). -/
theorem C5_negative_reply (req : Request) (cache : String → String → Option CacheRow)
    (now : Nat) (rc : ResponseCode) (hq : req.messageType = .query) :
    (∀ record d, record.rdata = some d →
        handle_request req (.noRecordsFound (some record) rc) cache now
          = some ({ id := req.id, messageType := Header.new.messageType, responseCode := rc,
                    answers := [], name_servers := [],
                    soa := [{ name := record.name, rtype := record.rtype, rclass := .IN,
                              ttl := record.ttl, rdata := some d }],
                    additionals := [] }, []))
    ∧ handle_request req (.noRecordsFound none rc) cache now
        = some ({ id := req.id, messageType := Header.new.messageType, responseCode := rc,
                  answers := [], name_servers := [], soa := [], additionals := [] }, []) := by
  constructor
  · intro record d hd
    simp only [handle_request, hq, hd, negativeResponse]
  · simp only [handle_request, hq, negativeResponse]

/-- Witness for C5: a concrete NXDOMAIN with SOA is passed through with
code, SOA fields and no database statements. -/
theorem C5_negative_reply_witness :
    handle_request { id := 9, messageType := .query, queryName := "nope.example.", queryType := .A }
        (.noRecordsFound
          (some { name := "example.", rtype := .SOA, rclass := .IN, ttl := 3600, rdata := some "soa-rdata" })
          .nxDomain)
        (fun _ _ => none) 500
      = some ({ id := 9, messageType := Header.new.messageType, responseCode := .nxDomain,
                answers := [], name_servers := [],
                soa := [{ name := "example.", rtype := .SOA, rclass := .IN, ttl := 3600,
                          rdata := some "soa-rdata" }],
                additionals := [] }, []) :=
  (C5_negative_reply { id := 9, messageType := .query, queryName := "nope.example.", queryType := .A }
      (fun _ _ => none) 500 .nxDomain rfl).1
    { name := "example.", rtype := .SOA, rclass := .IN, ttl := 3600, rdata := some "soa-rdata" }
    "soa-rdata" rfl

/-- Claim C6: on NoConnections the handler replies ServFail with an empty
body (and the request's id), and issues no database statement: the cache
is never read on this path. -/
theorem C6_noconnections (req : Request) (cache : String → String → Option CacheRow)
    (now : Nat) (hq : req.messageType = .query) :
    handle_request req .noConnections cache now
      = some ({ id := req.id, messageType := .response, responseCode := .servFail,
                answers := [], name_servers := [], soa := [], additionals := [] }, []) := by
  simp only [handle_request, hq, error_msg]

/-- Witness for C6 at a concrete request. -/
theorem C6_noconnections_witness :
    handle_request { id := 4, messageType := .query, queryName := "e.example.com.", queryType := .AAAA }
        .noConnections (fun _ _ => none) 300
      = some ({ id := 4, messageType := .response, responseCode := .servFail,
                answers := [], name_servers := [], soa := [], additionals := [] }, []) :=
  C6_noconnections { id := 4, messageType := .query, queryName := "e.example.com.", queryType := .AAAA }
    (fun _ _ => none) 300 rfl

/-- Claim C8: every successful upstream reply issues exactly one upsert,
keyed by the query's name and type, with `data_received_at` equal to
`last_query_at` (both the current instant) and the serialized batch as
`content_json`; and that blob round-trips -- deserializing it yields the
upstream record batch again. -/
theorem C8_upsert_roundtrip (req : Request) (cache : String → String → Option CacheRow)
    (now : Nat) (records : List Record) (hq : req.messageType = .query) :
    handle_request req (.success records) cache now
      = some ((sort_out_records req.queryName records now now).make_response req,
              [DbEffect.upsert req.queryName req.queryType.toStr (serializeRecords records)
                (now : Int) (now : Int)])
    ∧ deserializeRecords (serializeRecords records) = some records :=
  ⟨by simp only [handle_request, hq], deserializeRecords_serializeRecords records⟩

/-- A record batch for the C8 witness. -/
def c8rec : Record :=
  { name := "d.example.com.", rtype := .A, rclass := .IN, ttl := 120, rdata := some "4.3.2.1" }

/-- Witness for C8 at a concrete request and batch. -/
theorem C8_upsert_roundtrip_witness :
    handle_request { id := 3, messageType := .query, queryName := "d.example.com.", queryType := .A }
        (.success [c8rec]) (fun _ _ => none) 200
      = some ((sort_out_records "d.example.com." [c8rec] 200 200).make_response
                { id := 3, messageType := .query, queryName := "d.example.com.", queryType := .A },
              [DbEffect.upsert "d.example.com." "A" (serializeRecords [c8rec]) (200 : Int) (200 : Int)])
    ∧ deserializeRecords (serializeRecords [c8rec]) = some [c8rec] :=
  C8_upsert_roundtrip { id := 3, messageType := .query, queryName := "d.example.com.", queryType := .A }
    (fun _ _ => none) 200 [c8rec] rfl

/-!
The upstream-spec parser (`UpstreamSpec::from_str`, src/args.rs lines
43-104).

Host parsing delegates to Rust's `IpAddr::from_str` (standard library,
external to the repository). Modelled from the spec:
`host := IPv4 literal | IPv6 literal (no DNS names)` -- we implement the
standard dotted-quad grammar (four decimal octets 0-255, digits only, no
leading zeros) and the colon-grouped IPv6 grammar (1-4 hex digit groups,
at most one `::`, optional embedded dotted quad in the last position).
Port parsing delegates to Rust's `u16::from_str`: an optional leading
'+', then decimal digits, value below 2^16.
-/

/-- A parsed IP literal (Rust `IpAddr`). -/
inductive IpAddr where
  | v4 (a b c d : Nat)
  | v6 (groups : List Nat)
  deriving DecidableEq

/-- Decimal value of a digit string (big-endian). -/
def charsToNatBE (l : List Char) : Nat :=
  l.foldl (fun a c => a * 10 + (c.toNat - 48)) 0

/-- One dotted-quad octet: nonempty, digits only, no leading zero
(except "0" itself), value at most 255. -/
def parseOctet (s : List Char) : Option Nat :=
  if s = [] then none
  else if ¬ s.all (fun c => c.isDigit) then none
  else if 1 < s.length ∧ s.head? = some '0' then none
  else if charsToNatBE s ≤ 255 then some (charsToNatBE s) else none

/-- Split a character list on a separator (like `str::split`). -/
def splitOnChar (sep : Char) : List Char → List (List Char)
  | [] => [[]]
  | c :: cs =>
    if c = sep then [] :: splitOnChar sep cs
    else
      match splitOnChar sep cs with
      | [] => [[c]]
      | h :: t => (c :: h) :: t

def parseIpv4 (s : List Char) : Option IpAddr :=
  match splitOnChar '.' s with
  | [a, b, c, d] =>
    match parseOctet a, parseOctet b, parseOctet c, parseOctet d with
    | some x, some y, some z, some w => some (.v4 x y z w)
    | _, _, _, _ => none
  | _ => none

def hexDigitVal (c : Char) : Option Nat :=
  if '0' ≤ c ∧ c ≤ '9' then some (c.toNat - 48)
  else if 'a' ≤ c ∧ c ≤ 'f' then some (c.toNat - 87)
  else if 'A' ≤ c ∧ c ≤ 'F' then some (c.toNat - 55)
  else none

/-- One IPv6 group: 1 to 4 hex digits. -/
def parseHexGroup (s : List Char) : Option Nat :=
  if s = [] ∨ 4 < s.length then none
  else s.foldl (fun acc c => acc.bind (fun a => (hexDigitVal c).map (fun d => a * 16 + d))) (some 0)

/-- The last group of an IPv6 address may be an embedded dotted quad,
contributing two 16-bit groups. -/
def parseV6Tail (s : List Char) : Option (List Nat) :=
  if s.contains '.' then
    match parseIpv4 s with
    | some (.v4 a b c d) => some [a * 256 + b, c * 256 + d]
    | _ => none
  else (parseHexGroup s).map (fun g => [g])

/-- Hex groups with an optional embedded dotted quad in last position. -/
def parseGroups : List (List Char) → Option (List Nat)
  | [] => some []
  | [last] => parseV6Tail last
  | p :: rest => do
    let g ← parseHexGroup p
    let gs ← parseGroups rest
    pure (g :: gs)

/-- Hex groups only (the part left of a `::` cannot embed a quad). -/
def parseGroupsNoV4 : List (List Char) → Option (List Nat)
  | [] => some []
  | p :: rest => do
    let g ← parseHexGroup p
    let gs ← parseGroupsNoV4 rest
    pure (g :: gs)

/-- Split on the two-character separator `::` (leftmost, non-overlapping,
like `str::split`). -/
def splitDC : List Char → List (List Char)
  | [] => [[]]
  | ':' :: ':' :: rest => [] :: splitDC rest
  | c :: cs =>
    match splitDC cs with
    | [] => [[c]]
    | h :: t => (c :: h) :: t

def parseIpv6 (s : List Char) : Option IpAddr :=
  match splitDC s with
  | [w] =>
    match parseGroups (splitOnChar ':' w) with
    | some gs => if gs.length = 8 then some (.v6 gs) else none
    | none => none
  | [l, r] =>
    match (if l = [] then some [] else parseGroupsNoV4 (splitOnChar ':' l)),
          (if r = [] then some [] else parseGroups (splitOnChar ':' r)) with
    | some lgs, some rgs =>
      if lgs.length + rgs.length ≤ 7 then
        some (.v6 (lgs ++ List.replicate (8 - lgs.length - rgs.length) 0 ++ rgs))
      else none
    | _, _ => none
  | _ => none

/-- `IpAddr::from_str`: the dotted-quad grammar, else the IPv6 grammar. -/
def IpAddr.parse (s : List Char) : Option IpAddr :=
  match parseIpv4 s with
  | some ip => some ip
  | none => parseIpv6 s

/-- `hickory_resolver::config::Protocol`, restricted to the two variants
the parser can produce. -/
inductive Protocol where
  | udp
  | tcp
  deriving DecidableEq

/-- The parsed upstream endpoint (src/args.rs lines 27-32). -/
structure UpstreamSpec where
  host : IpAddr
  port : Nat
  protocol : Protocol
  deriving DecidableEq

/-- Rust's unsigned-integer `from_str` accepts an optional leading '+'. -/
def stripPlus : List Char → List Char
  | '+' :: rest => rest
  | s => s

/-- `str::parse::<u16>()`: optional '+', then decimal digits, value below
2^16. -/
def parse_u16 (s : List Char) : Option Nat :=
  if stripPlus s = [] then none
  else if (stripPlus s).all (fun c => c.isDigit) then
    if charsToNatBE (stripPlus s) < 65536 then some (charsToNatBE (stripPlus s)) else none
  else none

/-- `str::find(char)`: index of the first occurrence. -/
def findChar (c : Char) : List Char → Option Nat
  | [] => none
  | x :: xs => if x = c then some 0 else (findChar c xs).map (· + 1)

/-- The tail of `UpstreamSpec::from_str` after the protocol part has been
handled (src/args.rs lines 91-102): if the remaining string has a ':',
parse the port after it, else keep the default 53. -/
def finishPort (s : List Char) (host : IpAddr) (protocol : Protocol) :
    Except String UpstreamSpec :=
  match findChar ':' s with
  | some idx =>
    match parse_u16 (s.drop (idx + 1)) with
    | none => .error ("Failed to parse port: " ++ String.mk (s.drop (idx + 1)))
    | some port => .ok { host := host, port := port, protocol := protocol }
  | none => .ok { host := host, port := 53, protocol := protocol }

/-- `UpstreamSpec::from_str` (src/args.rs lines 43-104): the earliest of
':' and '/' ends the host; empty host and unparseable IP are errors; with
neither separator present the defaults (port 53, UDP) apply; a '/'
introduces the protocol, which must be exactly "tcp" or "udp" to the end
of the string; a ':' in what remains introduces the port. -/
def from_str (s0 : String) : Except String UpstreamSpec :=
  let s := s0.data
  let fs1 : Nat :=
    match findChar ':' s with
    | some idx => idx
    | none => s.length
  let first_separator : Nat :=
    match findChar '/' s with
    | some idx => min fs1 idx
    | none => fs1
  let host_str := s.take first_separator
  if host_str = [] then .error "No host specified"
  else
    match IpAddr.parse host_str with
    | none => .error ("Failed to parse IP: " ++ String.mk host_str)
    | some host =>
      if first_separator = s.length then
        .ok { host := host, port := 53, protocol := Protocol.udp }
      else
        match findChar '/' s with
        | some idx =>
          if s.drop (idx + 1) = ("tcp" : String).data then finishPort (s.take idx) host Protocol.tcp
          else if s.drop (idx + 1) = ("udp" : String).data then finishPort (s.take idx) host Protocol.udp
          else .error ("Unknown protocol: " ++ String.mk (s.drop (idx + 1)))
        | none => finishPort s host Protocol.udp

theorem findChar_eq_none (c : Char) (l : List Char) (h : c ∉ l) : findChar c l = none := by
  induction l with
  | nil => rfl
  | cons x xs ih =>
    have hx : ¬ x = c := by
      rintro rfl
      exact h (List.mem_cons_self _ _)
    have h2 : c ∉ xs := fun hm => h (List.mem_cons_of_mem _ hm)
    simp [findChar, hx, ih h2]

theorem findChar_lt_length (c : Char) (l : List Char) (i : Nat) (h : findChar c l = some i) :
    i < l.length := by
  induction l generalizing i with
  | nil => cases h
  | cons x xs ih =>
    rw [findChar] at h
    split at h
    · cases h
      simp
    · cases hf : findChar c xs with
      | none => rw [hf] at h; cases h
      | some j =>
        rw [hf] at h
        cases h
        simpa using Nat.succ_lt_succ (ih j hf)

theorem parse_u16_lt (s : List Char) (v : Nat) (h : parse_u16 s = some v) : v < 65536 := by
  rw [parse_u16] at h
  split at h
  · cases h
  · split at h
    · split at h
      · cases h
        assumption
      · cases h
    · cases h

/-- Every Ok result of `finishPort` keeps the protocol it was handed, has
an in-range port, keeps the host, and has the default port 53 when the
remaining string holds no ':'. -/
theorem finishPort_ok (s : List Char) (host : IpAddr) (protocol : Protocol) (spec : UpstreamSpec)
    (h : finishPort s host protocol = .ok spec) :
    spec.protocol = protocol ∧ spec.port < 65536 ∧ (':' ∉ s → spec.port = 53) ∧ spec.host = host := by
  cases hf : findChar ':' s with
  | none =>
    simp only [finishPort, hf] at h
    cases h
    refine ⟨rfl, ?_, fun _ => rfl, rfl⟩
    show (53 : Nat) < 65536
    decide
  | some idx =>
    simp only [finishPort, hf] at h
    cases hp : parse_u16 (s.drop (idx + 1)) with
    | none =>
      simp only [hp] at h
      exact Except.noConfusion h
    | some v =>
      simp only [hp] at h
      cases h
      refine ⟨rfl, parse_u16_lt _ _ hp, ?_, rfl⟩
      intro hmem
      rw [findChar_eq_none ':' s hmem] at hf
      cases hf

/-- Every Ok result of `from_str` has an in-range port; the port is the
default 53 when the input has no ':', and the protocol is the default UDP
when the input has no '/'. -/
theorem from_str_ok (s0 : String) (spec : UpstreamSpec) (h : from_str s0 = .ok spec) :
    spec.port < 65536 ∧ (':' ∉ s0.data → spec.port = 53) ∧ ('/' ∉ s0.data → spec.protocol = Protocol.udp) := by
  have hdflt : ∀ host : IpAddr,
      (Except.ok { host := host, port := 53, protocol := Protocol.udp } : Except String UpstreamSpec)
          = Except.ok spec →
      spec.port < 65536 ∧ (':' ∉ s0.data → spec.port = 53) ∧ ('/' ∉ s0.data → spec.protocol = Protocol.udp) := by
    intro host hh
    cases hh
    refine ⟨?_, fun _ => rfl, fun _ => rfl⟩
    show (53 : Nat) < 65536
    decide
  cases hc : findChar ':' s0.data with
  | none =>
    cases hsl : findChar '/' s0.data with
    | none =>
      simp only [from_str, hc, hsl] at h
      split at h
      · exact Except.noConfusion h
      · split at h
        · exact Except.noConfusion h
        · split at h
          · exact hdflt _ h
          · rename_i hcond
            exact absurd trivial hcond
    | some si =>
      simp only [from_str, hc, hsl] at h
      split at h
      · exact Except.noConfusion h
      · split at h
        · exact Except.noConfusion h
        · split at h
          · exact hdflt _ h
          · split at h
            · have hfp := finishPort_ok _ _ _ _ h
              refine ⟨hfp.2.1, fun hm => hfp.2.2.1 (fun hmem => hm (List.take_subset _ _ hmem)), ?_⟩
              intro hms
              rw [findChar_eq_none '/' s0.data hms] at hsl
              exact Option.noConfusion hsl
            · split at h
              · have hfp := finishPort_ok _ _ _ _ h
                exact ⟨hfp.2.1, fun hm => hfp.2.2.1 (fun hmem => hm (List.take_subset _ _ hmem)),
                  fun _ => hfp.1⟩
              · exact Except.noConfusion h
  | some ci =>
    cases hsl : findChar '/' s0.data with
    | none =>
      simp only [from_str, hc, hsl] at h
      split at h
      · exact Except.noConfusion h
      · split at h
        · exact Except.noConfusion h
        · split at h
          · exact hdflt _ h
          · have hfp := finishPort_ok _ _ _ _ h
            exact ⟨hfp.2.1, fun hm => hfp.2.2.1 hm, fun _ => hfp.1⟩
    | some si =>
      simp only [from_str, hc, hsl] at h
      split at h
      · exact Except.noConfusion h
      · split at h
        · exact Except.noConfusion h
        · split at h
          · exact hdflt _ h
          · split at h
            · have hfp := finishPort_ok _ _ _ _ h
              refine ⟨hfp.2.1, fun hm => hfp.2.2.1 (fun hmem => hm (List.take_subset _ _ hmem)), ?_⟩
              intro hms
              rw [findChar_eq_none '/' s0.data hms] at hsl
              exact Option.noConfusion hsl
            · split at h
              · have hfp := finishPort_ok _ _ _ _ h
                exact ⟨hfp.2.1, fun hm => hfp.2.2.1 (fun hmem => hm (List.take_subset _ _ hmem)),
                  fun _ => hfp.1⟩
              · exact Except.noConfusion h

/-- Claim C9: `parse` is total: every input yields either a valid
`UpstreamSpec` -- with port defaulting to 53 when no ':' is present and
protocol defaulting to UDP when no '/' is present -- or a descriptive
error; there is no panic and no partial result. In particular the empty
host, a DNS-name host, and the host/protocol:port ordering are errors. -/
theorem C9_parse_total :
    (∀ s spec, from_str s = .ok spec →
        (':' ∉ s.data → spec.port = 53) ∧ ('/' ∉ s.data → spec.protocol = Protocol.udp))
    ∧ from_str "" = .error "No host specified"
    ∧ from_str "example.com" = .error ("Failed to parse IP: example.com")
    ∧ from_str "127.0.0.1/tcp:80" = .error ("Unknown protocol: tcp:80") := by
  refine ⟨?_, rfl, rfl, rfl⟩
  intro s spec h
  exact ⟨(from_str_ok s spec h).2.1, (from_str_ok s spec h).2.2⟩

/-- Witness for C9: the defaults at two concrete accepted inputs. -/
theorem C9_parse_total_witness :
    ({ host := IpAddr.v4 10 0 0 5, port := 53, protocol := Protocol.tcp } : UpstreamSpec).port = 53
    ∧ ({ host := IpAddr.v4 10 0 0 5, port := 53, protocol := Protocol.udp } : UpstreamSpec).protocol
        = Protocol.udp :=
  ⟨(C9_parse_total.1 "10.0.0.5/tcp" _ rfl).1 (by decide),
   (C9_parse_total.1 "10.0.0.5" _ rfl).2 (by decide)⟩

/-- Counterexample to claim C10 as stated: the parser accepts port 0 (the
source delegates to `u16` parsing, which admits the full range 0..65535),
while the claim says any port outside 1..65535, in particular "0", is an
error. -/
theorem C10_counterexample :
    from_str "127.0.0.1:0"
      = .ok { host := IpAddr.v4 127 0 0 1, port := 0, protocol := Protocol.udp } := rfl

/-- Claim C10 (amended): when a port component is present it must parse
as a 16-bit unsigned integer: every accepted spec has port below 65536,
and an out-of-range ("65536") or non-numeric ("x") port is an error;
port 0 is accepted. -/
theorem C10_port_range :
    (∀ s spec, from_str s = .ok spec → spec.port < 65536)
    ∧ from_str "127.0.0.1:65536" = .error ("Failed to parse port: 65536")
    ∧ from_str "127.0.0.1:x" = .error ("Failed to parse port: x") := by
  refine ⟨?_, rfl, rfl⟩
  intro s spec h
  exact (from_str_ok s spec h).1

/-- Witness for C10 (amended) at a concrete accepted input. -/
theorem C10_port_range_witness :
    ({ host := IpAddr.v4 127 0 0 1, port := 80, protocol := Protocol.udp } : UpstreamSpec).port
      < 65536 :=
  C10_port_range.1 "127.0.0.1:80" _ rfl

end SCDns
